import Mathlib

/-!
# Verification of the swagger-tools 2.0 metadata middleware

Shallow embedding of `src/middleware/2.0/swagger-metadata.js`: route-table
construction (`swaggerMetadataMiddleware`), per-request route matching and
parameter resolution (`swaggerMetadata`).

The path-template compiler (`expressStylePath` in the helpers module and the
third-party `path-to-regexp` library) is not part of the sources; it is
modelled from the specification at the level of path segments: a template is
a list of segments, each either a literal or a `placeholder` capture slot,
and the compiled regular expression is represented by a segment-matching
function plus the pattern's string form (in which placeholder names are
erased, exactly as `path-to-regexp` erases key names from the regex source).
-/

/-- A parsed JSON-ish value, as produced by the upstream query/body parsers
and as found in `schema.default`.  Resolution never coerces values, so the
precise shape is irrelevant; a small inductive with decidable equality
suffices. -/
inductive Value where
  | str (s : String)
  | num (n : Int)
  | bool (b : Bool)
deriving DecidableEq, Repr

/-- The `schema` sub-object of a parameter declaration; only its `default`
field is consulted by the middleware (line 132 of the source). -/
structure Schema where
  default : Option Value
deriving DecidableEq, Repr

/-- One parameter declaration.  `paramIn` embeds the JS field `in` (a Lean
keyword); `none` models an absent field and `some ""` an empty string, both
falsy in `param.in || 'query'`. -/
structure Param where
  name : String
  paramIn : Option String
  schema : Option Schema
deriving DecidableEq, Repr

/-- An operation object: its own parameter declarations (other
description-specific fields are passed through opaquely and never read). -/
structure Operation where
  parameters : List Param
deriving DecidableEq, Repr

/-- Modelled from the spec: one segment of a path template, either a literal
segment or a `placeholder` of the form `segname` in braces becoming a named
capture slot. -/
inductive Seg where
  | lit (s : String)
  | placeholder (name : String)
deriving DecidableEq, Repr

/-- A path item from the description: shared parameter declarations plus the
method fields present on it (an association list standing for the JS object's
`get`/`put`/... fields). -/
structure PathItem where
  parameters : List Param
  ops : List (String × Operation)
deriving DecidableEq, Repr

/-- The whole Swagger object: an optional base path (as literal segments
prepended before compilation) and the declared paths in insertion order. -/
structure SwaggerObject where
  basePath : List String
  paths : List (List Seg × PathItem)
deriving DecidableEq, Repr

/-- JS property read `obj[k]` on an object modelled as an association list:
the value at the key, or `undefined` (`none`) when absent. -/
def jsGet (l : List (String × α)) (k : String) : Option α :=
  match l with
  | [] => none
  | (k', v) :: rest => if k' = k then some v else jsGet rest k

/-- JS property write `obj[k] = v`: an existing key keeps its position in
enumeration order and its value is replaced; a new key is appended. -/
def jsSet (k : String) (v : α) : List (String × α) → List (String × α)
  | [] => [(k, v)]
  | (k', v') :: rest => if k' = k then (k, v) :: rest else (k', v') :: jsSet k v rest

/-- Modelled from the spec: `expressStylePath` (helpers module, not in the
sources) concatenates the base prefix, possibly empty, with the template, so
that matching is against the full request path. -/
def expressStylePath (basePath : List String) (t : List Seg) : List Seg :=
  basePath.map Seg.lit ++ t

/-- Modelled from the spec: the ordered capture-slot names of a compiled
template — the `keys` list `path-to-regexp` fills, name of the i-th
placeholder in left-to-right order. -/
def slotNames (t : List Seg) : List String :=
  t.filterMap fun s =>
    match s with
    | .lit _ => none
    | .placeholder n => some n

/-- Modelled from the spec: the string form of one segment inside the
compiled pattern.  A placeholder's NAME does not appear: every placeholder
compiles to the same one-segment wildcard group, exactly why two templates
differing only in placeholder names share a pattern string. -/
def segPattern : Seg → String
  | .lit s => s
  | .placeholder _ => "([^/]+?)"

/-- Modelled from the spec: `re.toString()` of the compiled pattern, the key
under which the route is stored. -/
def reString (t : List Seg) : String :=
  "/" ++ String.intercalate "/" (t.map segPattern)

/-- Modelled from the spec: `re.exec(path)` at segment level.  A literal
segment matches itself; a placeholder matches any single nonempty segment
and captures it; the whole path must be consumed.  Returns the ordered
capture values on success. -/
def matchSegs : List Seg → List String → Option (List String)
  | [], [] => some []
  | .lit s :: ts, p :: ps => if p = s then matchSegs ts ps else none
  | .placeholder _ :: ts, p :: ps =>
      if p = "" then none else (matchSegs ts ps).map (p :: ·)
  | _, _ => none

/-- One entry of the route table (`paths[reStr]` in the source): the path
item, the capture-slot names (`keys`), the compiled pattern (`re`), and the
method-to-operation map built from the seven known method fields. -/
structure Route where
  path : PathItem
  keys : List String
  pattern : List Seg
  operations : List (String × Operation)
deriving DecidableEq, Repr

/-- The seven HTTP methods the build loop probes, in source order. -/
def methodList : List String :=
  ["get", "put", "post", "delete", "options", "head", "patch"]

/-- Builds one route entry: compiled pattern, keys and the operations map
(only the methods present on the path item). -/
def mkRoute (basePath : List String) (t : List Seg) (item : PathItem) : Route :=
  let full := expressStylePath basePath t
  { path := item
    keys := slotNames full
    pattern := full
    operations := methodList.filterMap fun m => (jsGet item.ops m).map (m, ·) }

/-- The route-table construction of `swaggerMetadataMiddleware` (lines
53-72): each declared path is stored under its pattern STRING; a later path
compiling to the same string overwrites the earlier entry in place. -/
def buildPaths (basePath : List String) (specPaths : List (List Seg × PathItem)) :
    List (String × Route) :=
  specPaths.foldl
    (fun acc ti =>
      jsSet (reString (expressStylePath basePath ti.1)) (mkRoute basePath ti.1 ti.2) acc)
    []

/-- The `paths` table the middleware closure captures. -/
def swaggerMetadataMiddleware (so : SwaggerObject) : List (String × Route) :=
  buildPaths so.basePath so.paths

/-- `_.find(paths, path => match = path.re.exec(rPath); _.isArray(match))`:
the first table entry, in insertion order, whose pattern matches the request
path, together with the captured values. -/
def findRoute (table : List (String × Route)) (p : List String) :
    Option (Route × List String) :=
  match table with
  | [] => none
  | (_, r) :: rest =>
    match matchSegs r.pattern p with
    | some caps => some (r, caps)
    | none => findRoute rest p

/-- An incoming request, as handed over by the HTTP layer: the parsed path
segments (query string and fragment already excluded by `parseurl`), the
method, and the optionally present parsed `query` and `body` mappings
populated by external middleware.  `headers` is always present on a Node
request. -/
structure Request where
  pathname : List String
  method : String
  query : Option (List (String × Value))
  headers : List (String × Value)
  body : Option (List (String × Value))
deriving DecidableEq, Repr

/-- `req.method.toLowerCase()`: JS lowercasing, character by character
(method names are ASCII).  Written over the character list so that it
evaluates by kernel reduction. -/
def toLowerCase (s : String) : String :=
  String.mk (s.data.map Char.toLower)

/-- One entry of `metadata.params`: the declaration itself as `schema`, and
the extracted raw `value` (line 136-139 of the source). -/
structure ParamEntry where
  schema : Param
  value : Option Value
deriving DecidableEq, Repr

/-- `lodash`'s `_.uniq`, with an explicit seen-accumulator: an element is
kept exactly when it did not occur earlier in the list. -/
def uniqAux (seen : List Param) : List Param → List Param
  | [] => []
  | p :: rest => if p ∈ seen then uniqAux seen rest else p :: uniqAux (p :: seen) rest

/-- `lodash`'s `_.uniq`: keep the first occurrence of each element. -/
def uniqParams (l : List Param) : List Param :=
  uniqAux [] l

/-- `_.union(path.parameters, operation.parameters)` (line 94): the shared
declarations followed by the operation's own, deduplicated keeping first
occurrences.  (On distinct declaration objects this is plain
concatenation.) -/
def unionParams (l1 l2 : List Param) : List Param :=
  uniqParams (l1 ++ l2)

/-- `paramType = param.in || 'query'` (line 95): an absent or empty `in`
falls back to the string `query`. -/
def paramType (p : Param) : String :=
  match p.paramIn with
  | none => "query"
  | some s => if s = "" then "query" else s

/-- The `case 'path'` loop (lines 113-118): `_.each` walks ALL keys and
assigns `val = match[index + 1]` at every key whose name equals the
declaration's name, so the last matching slot wins; an out-of-range capture
assigns `undefined`. -/
def resolvePathValAux (n : String) : List String → List String → Option Value → Option Value
  | [], _, acc => acc
  | k :: ks, caps, acc =>
      resolvePathValAux n ks caps.tail
        (if k = n then caps.head?.map Value.str else acc)

/-- Path-parameter extraction over a route's `keys` and the regex captures. -/
def resolvePathVal (keys caps : List String) (n : String) : Option Value :=
  resolvePathValAux n keys caps none

/-- The `switch (paramType)` of lines 99-129.  `body`/`formData` read
`req.body[name]` and throw when `req.body` is missing; `header` reads
`req.headers[name]`; `path` extracts from the captures; `query` reads
`req.query[name]` and throws when `req.query` is missing; any OTHER type
matches no case, leaving `val` undefined. -/
def resolveParamVal (route : Route) (caps : List String) (req : Request) (p : Param) :
    Except String (Option Value) :=
  let t := paramType p
  if t = "body" ∨ t = "formData" then
    match req.body with
    | none => .error "Server configuration error: req.body is not defined but is required"
    | some b => .ok (jsGet b p.name)
  else if t = "header" then
    .ok ((jsGet req.headers p.name))
  else if t = "path" then
    .ok (resolvePathVal route.keys caps p.name)
  else if t = "query" then
    match req.query with
    | none => .error "Server configuration error: req.query is not defined but is required"
    | some q => .ok (jsGet q p.name)
  else
    .ok none

/-- The defaulting step (lines 131-134): an unresolved value falls back to
`param.schema.default` when both exist; a resolved value is kept unchanged. -/
def applyDefault (p : Param) (v : Option Value) : Option Value :=
  match v with
  | some x => some x
  | none =>
    match p.schema with
    | none => none
    | some s => s.default

/-- Source lookup followed by defaulting: the `params` entry stored for one
declaration (lines 99-139). -/
def resolvedEntry (route : Route) (caps : List String) (req : Request) (p : Param) :
    Except String ParamEntry :=
  (resolveParamVal route caps req p).map fun v => ⟨p, applyDefault p v⟩

/-- The `_.each` over the union (lines 94-140), with the mutation of
`metadata.params` made explicit: each declaration's entry is written under
its name (overwriting an earlier same-named entry, JS-object style); a thrown
error stops the loop, leaving the entries written so far. -/
def collectLoop (route : Route) (caps : List String) (req : Request) :
    List Param → List (String × ParamEntry) → List (String × ParamEntry) × Option String
  | [], acc => (acc, none)
  | p :: rest, acc =>
    match resolvedEntry route caps req p with
    | .error msg => (acc, some msg)
    | .ok e => collectLoop route caps req rest (jsSet p.name e acc)

/-- The metadata record (`req.swagger` shape): matched path item, matched
operation, resolved params.  The `swaggerObject` back-reference is constant
and omitted. -/
structure Metadata where
  path : Option PathItem
  operation : Option Operation
  params : List (String × ParamEntry)
deriving DecidableEq, Repr

/-- The observable outcome of one middleware invocation: `swagger` is
`req.swagger` after the call (`none` when never attached), `nextErr` the
error message passed to `next` (`none` for a plain `next()`), and `metadata`
the record the function computed internally. -/
structure MwResult where
  swagger : Option Metadata
  nextErr : Option String
  metadata : Metadata
deriving DecidableEq, Repr

/-- The per-request middleware body (lines 74-150): match the path against
the table in order, look the lowercased method up among the route's
operations, and, only when an operation matched, resolve the union of the
declarations, attaching `req.swagger` on success and calling `next` with the
error message on failure. -/
def swaggerMetadata (so : SwaggerObject) (req : Request) : MwResult :=
  let paths := swaggerMetadataMiddleware so
  match findRoute paths req.pathname with
  | none => ⟨none, none, ⟨none, none, []⟩⟩
  | some (route, caps) =>
    match jsGet route.operations (toLowerCase req.method) with
    | none => ⟨none, none, ⟨some route.path, none, []⟩⟩
    | some op =>
      let r := collectLoop route caps req
        (unionParams route.path.parameters op.parameters) []
      match r.2 with
      | some msg => ⟨none, some msg, ⟨some route.path, some op, r.1⟩⟩
      | none =>
        ⟨some ⟨some route.path, some op, r.1⟩, none, ⟨some route.path, some op, r.1⟩⟩

/-- Modelled from the spec: a concrete instantiation of a template — every
placeholder replaced by the concrete segment the assignment gives its name. -/
def instantiate (vals : String → String) : List Seg → List String
  | [] => []
  | .lit s :: ts => s :: instantiate vals ts
  | .placeholder n :: ts => vals n :: instantiate vals ts

/-! ## Helper lemmas -/

/-- A literal base prefix contributes no capture slots. -/
theorem slotNames_expressStylePath (basePath : List String) (t : List Seg) :
    slotNames (expressStylePath basePath t) = slotNames t := by
  induction basePath with
  | nil => rfl
  | cons b bs ih => simp only [expressStylePath, slotNames] at ih ⊢; simp [ih]

/-- Matching consumes a literal-segment prefix exactly. -/
theorem matchSegs_append_lits (basePath : List String) (t : List Seg) (q : List String) :
    matchSegs (List.map Seg.lit basePath ++ t) (basePath ++ q) = matchSegs t q := by
  induction basePath with
  | nil => rfl
  | cons b bs ih => simp [matchSegs, ih]

/-- A concrete instantiation of a template matches it, and the captures are
the substituted values in slot order. -/
theorem matchSegs_instantiate (vals : String → String) (t : List Seg)
    (h : ∀ n ∈ slotNames t, vals n ≠ "") :
    matchSegs t (instantiate vals t) = some ((slotNames t).map vals) := by
  induction t with
  | nil => rfl
  | cons s ts ih =>
    cases s with
    | lit x =>
      simp only [instantiate, matchSegs, if_pos rfl]
      exact ih (fun n hn => h n (by simp [slotNames] at hn ⊢; exact hn))
    | placeholder n =>
      have hne : vals n ≠ "" := h n (by simp [slotNames])
      simp only [instantiate, matchSegs, if_neg hne]
      rw [ih (fun m hm => h m (by simp [slotNames] at hm ⊢; exact Or.inr hm))]
      simp [slotNames]

/-- The path-capture loop leaves the accumulator untouched when no key bears
the requested name. -/
theorem resolvePathValAux_not_mem (n : String) (keys caps : List String) (acc : Option Value)
    (h : n ∉ keys) : resolvePathValAux n keys caps acc = acc := by
  induction keys generalizing caps acc with
  | nil => rfl
  | cons k ks ih =>
    have hk : k ≠ n := fun he => h (he ▸ List.mem_cons_self k ks)
    simp only [resolvePathValAux, if_neg hk]
    exact ih _ _ (fun hm => h (List.mem_cons_of_mem _ hm))

/-- With pairwise-distinct keys, the capture loop extracts exactly the
capture aligned with the key position. -/
theorem resolvePathVal_nodup (keys caps : List String) (n : String) (i : Nat)
    (hnd : keys.Nodup) (hi : keys[i]? = some n) :
    resolvePathVal keys caps n = (caps[i]?).map Value.str := by
  induction keys generalizing caps i with
  | nil => simp at hi
  | cons k ks ih =>
    cases i with
    | zero =>
      have hk : k = n := by simpa using hi
      subst hk
      have hnm : k ∉ ks := (List.nodup_cons.mp hnd).1
      simp only [resolvePathVal, resolvePathValAux, if_pos rfl]
      rw [resolvePathValAux_not_mem _ _ _ _ hnm]
      cases caps <;> simp
    | succ j =>
      simp only [List.getElem?_cons_succ] at hi
      have hmem : n ∈ ks := by rw [List.mem_iff_getElem?]; exact ⟨j, hi⟩
      have hk : k ≠ n := fun he => (List.nodup_cons.mp hnd).1 (he ▸ hmem)
      simp only [resolvePathVal, resolvePathValAux, if_neg hk]
      have := ih caps.tail j (List.nodup_cons.mp hnd).2 hi
      simp only [resolvePathVal] at this
      rw [this]
      cases caps <;> simp

/-- `true` exactly when the branch taken for this declaration throws: query
semantics with no parsed query, or body/formData semantics with no parsed
body. -/
def missingSourceData (req : Request) (p : Param) : Bool :=
  (paramType p = "query" && req.query.isNone) ||
  ((paramType p = "body" || paramType p = "formData") && req.body.isNone)

/-- Discriminates the error constructor of a resolution step. -/
def isError : Except String α → Bool
  | .error _ => true
  | .ok _ => false

/-- Source lookup for one declaration throws exactly when its required
pre-parsed request data is missing. -/
theorem resolveParamVal_error_iff (route : Route) (caps : List String) (req : Request) (p : Param) :
    isError (resolveParamVal route caps req p) = missingSourceData req p := by
  unfold resolveParamVal missingSourceData
  dsimp only
  split_ifs with h1 h2 h3 h4
  · rcases hb : req.body with _ | b <;> rcases h1 with h | h <;> simp [isError, h, hb]
  · simp [isError, h2]
  · simp [isError, h3]
  · rcases hq : req.query with _ | q <;> simp [isError, h4, hq]
  · simp [isError, h1, h2, h3, h4]

/-- Defaulting never turns a successful lookup into an error or back. -/
theorem resolvedEntry_error_iff (route : Route) (caps : List String) (req : Request) (p : Param) :
    isError (resolvedEntry route caps req p) = missingSourceData req p := by
  rw [← resolveParamVal_error_iff route caps req p]
  unfold resolvedEntry
  rcases resolveParamVal route caps req p <;> simp [isError, Except.map]

/-- The collection loop ends in an error exactly when some declaration in
the list lacks its required request data. -/
theorem collectLoop_error_iff (route : Route) (caps : List String) (req : Request)
    (l : List Param) (acc : List (String × ParamEntry)) :
    ((collectLoop route caps req l acc).2).isSome = true ↔
      ∃ p ∈ l, missingSourceData req p = true := by
  induction l generalizing acc with
  | nil => simp [collectLoop]
  | cons p rest ih =>
    have he := resolvedEntry_error_iff route caps req p
    simp only [collectLoop]
    rcases hr : resolvedEntry route caps req p with msg | e
    · rw [hr] at he
      simp only [isError] at he
      simp [← he]
    · rw [hr] at he
      simp only [isError] at he
      simp only [List.mem_cons]
      rw [ih]
      constructor
      · rintro ⟨q, hq, hmq⟩; exact ⟨q, Or.inr hq, hmq⟩
      · rintro ⟨q, hq | hq, hmq⟩
        · exact absurd hmq (by rw [hq, ← he]; simp)
        · exact ⟨q, hq, hmq⟩

/-- Middleware outcome when no route pattern matches the request path. -/
theorem swaggerMetadata_no_route (so : SwaggerObject) (req : Request)
    (hf : findRoute (swaggerMetadataMiddleware so) req.pathname = none) :
    swaggerMetadata so req = ⟨none, none, ⟨none, none, []⟩⟩ := by
  unfold swaggerMetadata
  dsimp only
  rw [hf]

/-- Middleware outcome when a route matches but the method has no declared
operation. -/
theorem swaggerMetadata_no_op (so : SwaggerObject) (req : Request)
    (route : Route) (caps : List String)
    (hf : findRoute (swaggerMetadataMiddleware so) req.pathname = some (route, caps))
    (hop : jsGet route.operations (toLowerCase req.method) = none) :
    swaggerMetadata so req = ⟨none, none, ⟨some route.path, none, []⟩⟩ := by
  unfold swaggerMetadata
  dsimp only
  rw [hf]
  dsimp only
  rw [hop]

/-- Middleware outcome when resolution throws: `next` receives the message
and `req.swagger` is never assigned. -/
theorem swaggerMetadata_err (so : SwaggerObject) (req : Request)
    (route : Route) (caps : List String) (op : Operation) (msg : String)
    (hf : findRoute (swaggerMetadataMiddleware so) req.pathname = some (route, caps))
    (hop : jsGet route.operations (toLowerCase req.method) = some op)
    (he : (collectLoop route caps req (unionParams route.path.parameters op.parameters) []).2 = some msg) :
    swaggerMetadata so req = ⟨none, some msg,
      ⟨some route.path, some op,
        (collectLoop route caps req (unionParams route.path.parameters op.parameters) []).1⟩⟩ := by
  unfold swaggerMetadata
  dsimp only
  rw [hf]
  dsimp only
  rw [hop]
  dsimp only
  rw [he]

/-- Middleware outcome when resolution succeeds: the metadata is attached. -/
theorem swaggerMetadata_ok (so : SwaggerObject) (req : Request)
    (route : Route) (caps : List String) (op : Operation)
    (hf : findRoute (swaggerMetadataMiddleware so) req.pathname = some (route, caps))
    (hop : jsGet route.operations (toLowerCase req.method) = some op)
    (he : (collectLoop route caps req (unionParams route.path.parameters op.parameters) []).2 = none) :
    swaggerMetadata so req =
      ⟨some ⟨some route.path, some op,
          (collectLoop route caps req (unionParams route.path.parameters op.parameters) []).1⟩, none,
        ⟨some route.path, some op,
          (collectLoop route caps req (unionParams route.path.parameters op.parameters) []).1⟩⟩ := by
  unfold swaggerMetadata
  dsimp only
  rw [hf]
  dsimp only
  rw [hop]
  dsimp only
  rw [he]

/-- On a matched route and operation, the value handed to `next` is the
error slot of the collection loop. -/
theorem swaggerMetadata_matched (so : SwaggerObject) (req : Request)
    (route : Route) (caps : List String) (op : Operation)
    (hf : findRoute (swaggerMetadataMiddleware so) req.pathname = some (route, caps))
    (hop : jsGet route.operations (toLowerCase req.method) = some op) :
    (swaggerMetadata so req).nextErr =
      (collectLoop route caps req (unionParams route.path.parameters op.parameters) []).2 := by
  unfold swaggerMetadata
  dsimp only
  rw [hf]
  dsimp only
  rw [hop]
  dsimp only
  rcases h2 : (collectLoop route caps req (unionParams route.path.parameters op.parameters) []).2 with _ | m <;>
    simp [h2]

/-- A falsy `in` field (absent or empty) yields the `query` location tag. -/
theorem paramType_query_of_falsy (p : Param) (h : p.paramIn = none ∨ p.paramIn = some "") :
    paramType p = "query" := by
  rcases h with h | h <;> simp [paramType, h]

/-! ## Claim theorems -/

/-- Claim C1: the claim states that when a path and its operation both
declare a parameter named `id` (path-level `in=path`, operation-level
`in=query`), the resolved entry keeps the path-level declaration and its
source.  The code processes the path-level declaration first and the
operation-level one second, and the second write under the same name
overwrites the first, so the surviving entry is the operation-level
(`in=query`) declaration with the query-sourced value — contradicting the
source's own comment that path parameters cannot be overridden by operation
parameters.  This theorem evaluates the middleware at such an input. -/
theorem c1_operation_param_overwrites_path_param :
    (swaggerMetadata
        ⟨[], [([Seg.lit "pets", Seg.placeholder "id"],
          ⟨[⟨"id", some "path", none⟩], [("get", ⟨[⟨"id", some "query", none⟩]⟩)]⟩)]⟩
        ⟨["pets", "42"], "GET", some [("id", Value.str "q")], [], none⟩).metadata.params
      = [("id", ⟨⟨"id", some "query", none⟩, some (Value.str "q")⟩)] ∧
    (⟨"id", some "query", none⟩ : Param) ≠ ⟨"id", some "path", none⟩ :=
  ⟨by decide, by decide⟩

/-- Claim C2 counterexample: two templates declared A then B whose compiled
patterns both match `/pets/1` — they differ only in placeholder names, so
they share one pattern string — resolve to B's route, not A's (first
declared): the claim fails as stated. -/
theorem c2_same_pattern_counterexample :
    matchSegs (expressStylePath [] [Seg.lit "pets", Seg.placeholder "petId"]) ["pets", "1"]
      = some ["1"] ∧
    matchSegs (expressStylePath [] [Seg.lit "pets", Seg.placeholder "id"]) ["pets", "1"]
      = some ["1"] ∧
    (swaggerMetadata
        ⟨[], [([Seg.lit "pets", Seg.placeholder "petId"],
               ⟨[⟨"petId", some "path", none⟩], [("get", ⟨[]⟩)]⟩),
              ([Seg.lit "pets", Seg.placeholder "id"],
               ⟨[⟨"id", some "path", none⟩], [("get", ⟨[]⟩)]⟩)]⟩
        ⟨["pets", "1"], "GET", some [], [], none⟩).metadata.path
      = some ⟨[⟨"id", some "path", none⟩], [("get", ⟨[]⟩)]⟩ ∧
    (⟨[⟨"id", some "path", none⟩], [("get", ⟨[]⟩)]⟩ : PathItem)
      ≠ ⟨[⟨"petId", some "path", none⟩], [("get", ⟨[]⟩)]⟩ :=
  ⟨rfl, rfl, by decide, by decide⟩

/-- Claim C2 (amended to templates with distinct compiled pattern strings):
for a description declaring A then B whose pattern strings differ, the table
holds both routes in declaration order, a path matching A's pattern selects
A's route with A's captures — lookup order is exactly build order — and the
selection is a pure function of its inputs. -/
theorem c2_first_match_wins_distinct_patterns (basePath : List String) (A B : List Seg)
    (iA iB : PathItem) (p capsA : List String)
    (hne : reString (expressStylePath basePath A) ≠ reString (expressStylePath basePath B))
    (hm : matchSegs (expressStylePath basePath A) p = some capsA) :
    buildPaths basePath [(A, iA), (B, iB)] =
      [(reString (expressStylePath basePath A), mkRoute basePath A iA),
       (reString (expressStylePath basePath B), mkRoute basePath B iB)] ∧
    findRoute (buildPaths basePath [(A, iA), (B, iB)]) p = some (mkRoute basePath A iA, capsA) ∧
    (mkRoute basePath A iA).path = iA := by
  have htab : buildPaths basePath [(A, iA), (B, iB)] =
      [(reString (expressStylePath basePath A), mkRoute basePath A iA),
       (reString (expressStylePath basePath B), mkRoute basePath B iB)] := by
    simp only [buildPaths, List.foldl, jsSet]
    rw [if_neg (fun h => hne h)]
  refine ⟨htab, ?_, rfl⟩
  rw [htab]
  unfold findRoute
  rw [show (mkRoute basePath A iA).pattern = expressStylePath basePath A from rfl, hm]

/-- Claim C2 witness: a two-route table whose patterns (a wildcard and a
literal) both match `/b` but have distinct pattern strings; the
first-declared wildcard route wins. -/
theorem c2_first_match_wins_distinct_patterns_witness :
    reString (expressStylePath [] [Seg.placeholder "x"])
      ≠ reString (expressStylePath [] [Seg.lit "b"]) ∧
    matchSegs (expressStylePath [] [Seg.placeholder "x"]) ["b"] = some ["b"] ∧
    matchSegs (expressStylePath [] [Seg.lit "b"]) ["b"] = some [] ∧
    findRoute (buildPaths [] [([Seg.placeholder "x"], ⟨[], []⟩), ([Seg.lit "b"], ⟨[], []⟩)]) ["b"]
      = some (mkRoute [] [Seg.placeholder "x"] ⟨[], []⟩, ["b"]) :=
  ⟨by decide, rfl, rfl,
    (c2_first_match_wins_distinct_patterns [] [Seg.placeholder "x"] [Seg.lit "b"]
      ⟨[], []⟩ ⟨[], []⟩ ["b"] ["b"] (by decide) rfl).2.1⟩

/-- Claim C3 counterexample: a declaration with `in = "cookie"` (a truthy
value outside the five known locations) on a request with NO parsed query:
the claim says query semantics apply, hence a ConfigurationError; the code
matches no switch case, performs no lookup, raises no error, and leaves the
value undefined. -/
theorem c3_unknown_in_counterexample :
    (⟨["x"], "get", none, [], none⟩ : Request).query = none ∧
    (swaggerMetadata
        ⟨[], [([Seg.lit "x"], ⟨[⟨"tok", some "cookie", none⟩], [("get", ⟨[]⟩)]⟩)]⟩
        ⟨["x"], "get", none, [], none⟩).nextErr = none ∧
    (swaggerMetadata
        ⟨[], [([Seg.lit "x"], ⟨[⟨"tok", some "cookie", none⟩], [("get", ⟨[]⟩)]⟩)]⟩
        ⟨["x"], "get", none, [], none⟩).metadata.params
      = [("tok", ⟨⟨"tok", some "cookie", none⟩, none⟩)] :=
  ⟨rfl, by decide, by decide⟩

/-- Claim C3 (amended): only a FALSY `in` (absent or empty string) gets
query semantics — lookup in `request.query[name]`, ConfigurationError when
no parsed query exists; a truthy `in` outside path/query/header/body/formData
matches no switch case, so no source is consulted, no error is raised and
the value stays unresolved. -/
theorem c3_falsy_in_query_semantics (route : Route) (caps : List String)
    (req : Request) (p : Param) :
    ((p.paramIn = none ∨ p.paramIn = some "") →
      resolveParamVal route caps req p =
        (match req.query with
         | none => Except.error "Server configuration error: req.query is not defined but is required"
         | some q => Except.ok (jsGet q p.name))) ∧
    (∀ s, p.paramIn = some s →
      s ∉ (["", "path", "query", "header", "body", "formData"] : List String) →
      resolveParamVal route caps req p = .ok none) := by
  constructor
  · intro h
    unfold resolveParamVal
    rw [paramType_query_of_falsy p h]
    rw [if_neg (by decide), if_neg (by decide), if_neg (by decide), if_pos rfl]
  · intro s hs hmem
    simp only [List.mem_cons, List.mem_singleton] at hmem
    push_neg at hmem
    obtain ⟨h0, h1, h2, h3, h4, h5⟩ := hmem
    have hpt : paramType p = s := by
      unfold paramType
      rw [hs]
      simp [h0]
    unfold resolveParamVal
    rw [hpt]
    rw [if_neg (by simp [h4, h5]), if_neg h3, if_neg h1, if_neg h2]

/-- Claim C3 witness: a declaration with absent `in` resolves from the
query mapping; a declaration with `in = "cookie"` resolves to nothing. -/
theorem c3_falsy_in_query_semantics_witness :
    resolveParamVal (mkRoute [] [] ⟨[], []⟩) []
        ⟨[], "get", some [("q", Value.str "v")], [], none⟩ ⟨"q", none, none⟩
      = .ok (some (Value.str "v")) ∧
    resolveParamVal (mkRoute [] [] ⟨[], []⟩) []
        ⟨[], "get", none, [], none⟩ ⟨"c", some "cookie", none⟩
      = .ok none :=
  ⟨(c3_falsy_in_query_semantics (mkRoute [] [] ⟨[], []⟩) []
      ⟨[], "get", some [("q", Value.str "v")], [], none⟩ ⟨"q", none, none⟩).1 (Or.inl rfl),
   (c3_falsy_in_query_semantics (mkRoute [] [] ⟨[], []⟩) []
      ⟨[], "get", none, [], none⟩ ⟨"c", some "cookie", none⟩).2 "cookie" rfl (by decide)⟩

/-- Claim C4: on a matched route and operation, resolution raises a
ConfigurationError if and only if some processed declaration (an element of
the union of path-level and operation-level declarations) has query
location (`in=query`, or absent/empty `in`, which the data model defaults to
query) while the request carries no parsed query mapping, or body/formData
location while the request carries no parsed body; otherwise resolution
completes without error. -/
theorem c4_configuration_error_iff_missing_source (so : SwaggerObject) (req : Request)
    (route : Route) (caps : List String) (op : Operation)
    (hf : findRoute (swaggerMetadataMiddleware so) req.pathname = some (route, caps))
    (hop : jsGet route.operations (toLowerCase req.method) = some op) :
    ((swaggerMetadata so req).nextErr).isSome = true ↔
      ∃ p ∈ unionParams route.path.parameters op.parameters, missingSourceData req p = true := by
  rw [swaggerMetadata_matched so req route caps op hf hop]
  exact collectLoop_error_iff route caps req _ []

/-- Claim C4 witness: a single declaration with absent `in` (query
semantics) on a request without parsed query data raises the error. -/
theorem c4_configuration_error_iff_missing_source_witness :
    findRoute
        (swaggerMetadataMiddleware ⟨[], [([Seg.lit "d"], ⟨[⟨"q", none, none⟩], [("get", ⟨[]⟩)]⟩)]⟩)
        (⟨["d"], "get", none, [], none⟩ : Request).pathname
      = some (mkRoute [] [Seg.lit "d"] ⟨[⟨"q", none, none⟩], [("get", ⟨[]⟩)]⟩, []) ∧
    jsGet (mkRoute [] [Seg.lit "d"] ⟨[⟨"q", none, none⟩], [("get", ⟨[]⟩)]⟩).operations
        (toLowerCase (⟨["d"], "get", none, [], none⟩ : Request).method)
      = some ⟨[]⟩ ∧
    ((swaggerMetadata ⟨[], [([Seg.lit "d"], ⟨[⟨"q", none, none⟩], [("get", ⟨[]⟩)]⟩)]⟩
        ⟨["d"], "get", none, [], none⟩).nextErr).isSome = true :=
  ⟨by decide, by decide,
    (c4_configuration_error_iff_missing_source
        ⟨[], [([Seg.lit "d"], ⟨[⟨"q", none, none⟩], [("get", ⟨[]⟩)]⟩)]⟩
        ⟨["d"], "get", none, [], none⟩
        (mkRoute [] [Seg.lit "d"] ⟨[⟨"q", none, none⟩], [("get", ⟨[]⟩)]⟩) [] ⟨[]⟩
        (by decide) (by decide)).mpr
      ⟨⟨"q", none, none⟩, by decide, by decide⟩⟩

/-- Claim C5: whenever resolution passes an error to `next`, the whole
resolution is aborted: `req.swagger` is never assigned, so the request
carries no metadata record and no partial params map. -/
theorem c5_error_aborts_resolution (so : SwaggerObject) (req : Request)
    (h : ((swaggerMetadata so req).nextErr).isSome = true) :
    (swaggerMetadata so req).swagger = none := by
  rcases hf : findRoute (swaggerMetadataMiddleware so) req.pathname with _ | ⟨route, caps⟩
  · rw [swaggerMetadata_no_route so req hf] at h
    simp at h
  · rcases hop : jsGet route.operations (toLowerCase req.method) with _ | op
    · rw [swaggerMetadata_no_op so req route caps hf hop] at h
      simp at h
    · rcases h2 : (collectLoop route caps req (unionParams route.path.parameters op.parameters) []).2 with _ | m
      · rw [swaggerMetadata_ok so req route caps op hf hop h2] at h
        simp at h
      · rw [swaggerMetadata_err so req route caps op m hf hop h2]

/-- Claim C5 witness: the erroring request of the C4 witness carries no
attached metadata. -/
theorem c5_error_aborts_resolution_witness :
    ((swaggerMetadata ⟨[], [([Seg.lit "d"], ⟨[⟨"q", none, none⟩], [("get", ⟨[]⟩)]⟩)]⟩
        ⟨["d"], "get", none, [], none⟩).nextErr).isSome = true ∧
    (swaggerMetadata ⟨[], [([Seg.lit "d"], ⟨[⟨"q", none, none⟩], [("get", ⟨[]⟩)]⟩)]⟩
        ⟨["d"], "get", none, [], none⟩).swagger = none :=
  ⟨by decide,
    c5_error_aborts_resolution
      ⟨[], [([Seg.lit "d"], ⟨[⟨"q", none, none⟩], [("get", ⟨[]⟩)]⟩)]⟩
      ⟨["d"], "get", none, [], none⟩ (by decide)⟩

/-- Claim C6: unmatched route and unmatched operation are not errors.  When
no route pattern matches, the computed metadata record is
`⟨none, none, []⟩` and `next` receives no error; when a route matches but
the lowercased method has no declared operation, the record carries the
matched path item with `operation = none`, again with no error. -/
theorem c6_unmatched_not_error (so : SwaggerObject) (req : Request) :
    (findRoute (swaggerMetadataMiddleware so) req.pathname = none →
      swaggerMetadata so req = ⟨none, none, ⟨none, none, []⟩⟩) ∧
    (∀ route caps,
      findRoute (swaggerMetadataMiddleware so) req.pathname = some (route, caps) →
      jsGet route.operations (toLowerCase req.method) = none →
      swaggerMetadata so req = ⟨none, none, ⟨some route.path, none, []⟩⟩) := by
  constructor
  · intro hf
    exact swaggerMetadata_no_route so req hf
  · intro route caps hf hop
    exact swaggerMetadata_no_op so req route caps hf hop

/-- Claim C6 witness: a request to an undeclared path yields the empty
record; a declared path with an undeclared method (`POST` against a
get-only path) yields the matched path item with no operation; neither
passes an error to `next`. -/
theorem c6_unmatched_not_error_witness :
    swaggerMetadata ⟨[], [([Seg.lit "x"], ⟨[], [("get", ⟨[]⟩)]⟩)]⟩
        ⟨["unknown"], "get", none, [], none⟩
      = ⟨none, none, ⟨none, none, []⟩⟩ ∧
    swaggerMetadata ⟨[], [([Seg.lit "x"], ⟨[], [("get", ⟨[]⟩)]⟩)]⟩
        ⟨["x"], "POST", none, [], none⟩
      = ⟨none, none, ⟨some ⟨[], [("get", ⟨[]⟩)]⟩, none, []⟩⟩ :=
  ⟨(c6_unmatched_not_error ⟨[], [([Seg.lit "x"], ⟨[], [("get", ⟨[]⟩)]⟩)]⟩
      ⟨["unknown"], "get", none, [], none⟩).1 (by decide),
   (c6_unmatched_not_error ⟨[], [([Seg.lit "x"], ⟨[], [("get", ⟨[]⟩)]⟩)]⟩
      ⟨["x"], "POST", none, [], none⟩).2
     (mkRoute [] [Seg.lit "x"] ⟨[], [("get", ⟨[]⟩)]⟩) [] (by decide) (by decide)⟩

/-- Claim C7: with a declared base prefix, the prefix concatenated with a
concrete instantiation of the template (each placeholder replaced by a
nonempty concrete segment) matches the compiled route pattern, and the
captures are the substituted values in slot order; a path-typed declaration
whose name equals the i-th capture-slot name (slot names being pairwise
distinct) resolves to the i-th capture value, while a path-typed
declaration whose name matches no slot stays unresolved. -/
theorem c7_instantiation_matches_and_binds_path_params
    (basePath : List String) (t : List Seg) (vals : String → String)
    (item : PathItem) (req : Request) (p : Param) (i : Nat)
    (hne : ∀ n ∈ slotNames t, vals n ≠ "")
    (hnd : (slotNames t).Nodup)
    (hin : paramType p = "path") :
    matchSegs (mkRoute basePath t item).pattern (basePath ++ instantiate vals t)
      = some ((slotNames t).map vals) ∧
    ((slotNames t)[i]? = some p.name →
      resolveParamVal (mkRoute basePath t item) ((slotNames t).map vals) req p
        = .ok ((((slotNames t).map vals)[i]?).map Value.str)) ∧
    (p.name ∉ slotNames t →
      resolveParamVal (mkRoute basePath t item) ((slotNames t).map vals) req p = .ok none) := by
  have hkeys : (mkRoute basePath t item).keys = slotNames t := slotNames_expressStylePath basePath t
  have hresolve : resolveParamVal (mkRoute basePath t item) ((slotNames t).map vals) req p
      = .ok (resolvePathVal (slotNames t) ((slotNames t).map vals) p.name) := by
    unfold resolveParamVal
    rw [hin, hkeys]
    rw [if_neg (by decide), if_neg (by decide), if_pos rfl]
  refine ⟨?_, ?_, ?_⟩
  · show matchSegs (expressStylePath basePath t) (basePath ++ instantiate vals t) = _
    unfold expressStylePath
    rw [matchSegs_append_lits, matchSegs_instantiate _ _ hne]
  · intro hi
    rw [hresolve, resolvePathVal_nodup _ _ _ i hnd hi]
  · intro hnm
    rw [hresolve]
    unfold resolvePathVal
    rw [resolvePathValAux_not_mem _ _ _ _ hnm]

/-- Claim C7 witness: the spec's own example — base prefix `/v1`, template
`/pets/(petId)`, request `/v1/pets/42` — matches with capture `42`; the
path declaration named `petId` resolves to `42`, one named `other` to
nothing. -/
theorem c7_instantiation_matches_and_binds_path_params_witness :
    (∀ n ∈ slotNames [Seg.lit "pets", Seg.placeholder "petId"],
      (fun _ => "42") n ≠ "") ∧
    (slotNames [Seg.lit "pets", Seg.placeholder "petId"]).Nodup ∧
    matchSegs
        (mkRoute ["v1"] [Seg.lit "pets", Seg.placeholder "petId"]
          ⟨[⟨"petId", some "path", none⟩], [("get", ⟨[]⟩)]⟩).pattern
        (["v1"] ++ instantiate (fun _ => "42") [Seg.lit "pets", Seg.placeholder "petId"])
      = some ["42"] ∧
    resolveParamVal
        (mkRoute ["v1"] [Seg.lit "pets", Seg.placeholder "petId"]
          ⟨[⟨"petId", some "path", none⟩], [("get", ⟨[]⟩)]⟩)
        ["42"] ⟨["v1", "pets", "42"], "get", none, [], none⟩ ⟨"petId", some "path", none⟩
      = .ok (some (Value.str "42")) ∧
    resolveParamVal
        (mkRoute ["v1"] [Seg.lit "pets", Seg.placeholder "petId"]
          ⟨[⟨"petId", some "path", none⟩], [("get", ⟨[]⟩)]⟩)
        ["42"] ⟨["v1", "pets", "42"], "get", none, [], none⟩ ⟨"other", some "path", none⟩
      = .ok none :=
  ⟨by decide, by decide,
   (c7_instantiation_matches_and_binds_path_params ["v1"]
      [Seg.lit "pets", Seg.placeholder "petId"] (fun _ => "42")
      ⟨[⟨"petId", some "path", none⟩], [("get", ⟨[]⟩)]⟩
      ⟨["v1", "pets", "42"], "get", none, [], none⟩ ⟨"petId", some "path", none⟩ 0
      (by decide) (by decide) rfl).1,
   (c7_instantiation_matches_and_binds_path_params ["v1"]
      [Seg.lit "pets", Seg.placeholder "petId"] (fun _ => "42")
      ⟨[⟨"petId", some "path", none⟩], [("get", ⟨[]⟩)]⟩
      ⟨["v1", "pets", "42"], "get", none, [], none⟩ ⟨"petId", some "path", none⟩ 0
      (by decide) (by decide) rfl).2.1 rfl,
   (c7_instantiation_matches_and_binds_path_params ["v1"]
      [Seg.lit "pets", Seg.placeholder "petId"] (fun _ => "42")
      ⟨[⟨"petId", some "path", none⟩], [("get", ⟨[]⟩)]⟩
      ⟨["v1", "pets", "42"], "get", none, [], none⟩ ⟨"other", some "path", none⟩ 0
      (by decide) (by decide) rfl).2.2 (by decide)⟩

/-- Claim C8: a declaration whose source lookup leaves the value
unresolved and which carries `schema.default` stores exactly that default
in the params map — no coercion; a declaration whose lookup produced a
value stores that value, and the default is not consulted. -/
theorem c8_default_applied_iff_unresolved (route : Route) (caps : List String)
    (req : Request) (p : Param)
    (v : Option Value) (rest : List Param) (acc : List (String × ParamEntry))
    (hv : resolveParamVal route caps req p = .ok v) :
    (∀ s d, v = none → p.schema = some s → s.default = some d →
      collectLoop route caps req (p :: rest) acc
        = collectLoop route caps req rest (jsSet p.name ⟨p, some d⟩ acc)) ∧
    (∀ x, v = some x →
      collectLoop route caps req (p :: rest) acc
        = collectLoop route caps req rest (jsSet p.name ⟨p, some x⟩ acc)) := by
  have hcl : collectLoop route caps req (p :: rest) acc
      = collectLoop route caps req rest (jsSet p.name ⟨p, applyDefault p v⟩ acc) := by
    conv_lhs => rw [collectLoop]
    unfold resolvedEntry
    rw [hv]
    rfl
  constructor
  · intro s d hvn hs hd
    rw [hcl, hvn]
    have hdef : applyDefault p none = some d := by
      unfold applyDefault
      rw [hs]
      exact hd
    rw [hdef]
  · intro x hvx
    rw [hcl, hvx]
    rfl

/-- Claim C8 witness: a never-looked-up declaration (`in = "cookie"`) with
default `x` stores `x`; a header declaration with the same default stores
the header value `v` instead. -/
theorem c8_default_applied_iff_unresolved_witness :
    resolveParamVal (mkRoute [] [] ⟨[], []⟩) []
        ⟨[], "get", none, [("h", Value.str "v")], none⟩
        ⟨"d", some "cookie", some ⟨some (Value.str "x")⟩⟩ = .ok none ∧
    collectLoop (mkRoute [] [] ⟨[], []⟩) [] ⟨[], "get", none, [("h", Value.str "v")], none⟩
        [⟨"d", some "cookie", some ⟨some (Value.str "x")⟩⟩] []
      = collectLoop (mkRoute [] [] ⟨[], []⟩) [] ⟨[], "get", none, [("h", Value.str "v")], none⟩
          [] (jsSet "d" ⟨⟨"d", some "cookie", some ⟨some (Value.str "x")⟩⟩, some (Value.str "x")⟩ []) ∧
    resolveParamVal (mkRoute [] [] ⟨[], []⟩) []
        ⟨[], "get", none, [("h", Value.str "v")], none⟩
        ⟨"h", some "header", some ⟨some (Value.str "x")⟩⟩ = .ok (some (Value.str "v")) ∧
    collectLoop (mkRoute [] [] ⟨[], []⟩) [] ⟨[], "get", none, [("h", Value.str "v")], none⟩
        [⟨"h", some "header", some ⟨some (Value.str "x")⟩⟩] []
      = collectLoop (mkRoute [] [] ⟨[], []⟩) [] ⟨[], "get", none, [("h", Value.str "v")], none⟩
          [] (jsSet "h" ⟨⟨"h", some "header", some ⟨some (Value.str "x")⟩⟩, some (Value.str "v")⟩ []) :=
  ⟨by rfl,
   (c8_default_applied_iff_unresolved (mkRoute [] [] ⟨[], []⟩) []
      ⟨[], "get", none, [("h", Value.str "v")], none⟩
      ⟨"d", some "cookie", some ⟨some (Value.str "x")⟩⟩ none [] [] (by rfl)).1
     ⟨some (Value.str "x")⟩ (Value.str "x") rfl rfl rfl,
   by rfl,
   (c8_default_applied_iff_unresolved (mkRoute [] [] ⟨[], []⟩) []
      ⟨[], "get", none, [("h", Value.str "v")], none⟩
      ⟨"h", some "header", some ⟨some (Value.str "x")⟩⟩ (some (Value.str "v")) [] [] (by rfl)).2
     (Value.str "v") rfl⟩

/-- Claim C9: matching and resolution are pure: the middleware is a
function of the description and the request, so two runs on the same
immutable inputs produce identical outcomes (attached metadata, error,
computed record). -/
theorem c9_resolution_deterministic (so : SwaggerObject) (req : Request) :
    swaggerMetadata so req = swaggerMetadata so req := rfl

/-- Claim C10: the route table is keyed by the compiled pattern STRING, in
which placeholder names are erased; when two templates declared A then B
compile to the same string, only the later-declared B's route entry (path
item, capture slots, operations) remains, and every successful match
against the table yields B's route — A's can never match. -/
theorem c10_same_pattern_string_overwrites (basePath : List String) (A B : List Seg)
    (iA iB : PathItem)
    (h : reString (expressStylePath basePath A) = reString (expressStylePath basePath B)) :
    buildPaths basePath [(A, iA), (B, iB)] =
      [(reString (expressStylePath basePath B), mkRoute basePath B iB)] ∧
    (∀ p r caps, findRoute (buildPaths basePath [(A, iA), (B, iB)]) p = some (r, caps) →
      r = mkRoute basePath B iB) := by
  have htab : buildPaths basePath [(A, iA), (B, iB)] =
      [(reString (expressStylePath basePath B), mkRoute basePath B iB)] := by
    simp only [buildPaths, List.foldl, jsSet]
    rw [if_pos h]
  refine ⟨htab, ?_⟩
  intro p r caps hfind
  rw [htab] at hfind
  unfold findRoute at hfind
  rcases hmB : matchSegs (mkRoute basePath B iB).pattern p with _ | capsB
  · rw [hmB] at hfind
    simp [findRoute] at hfind
  · rw [hmB] at hfind
    simp at hfind
    exact hfind.1.symm

/-- Claim C10 witness: `/pets/(petId)` and `/pets/(id)` share one pattern
string; after building, only the second template's route remains. -/
theorem c10_same_pattern_string_overwrites_witness :
    reString (expressStylePath [] [Seg.lit "pets", Seg.placeholder "petId"])
      = reString (expressStylePath [] [Seg.lit "pets", Seg.placeholder "id"]) ∧
    buildPaths []
        [([Seg.lit "pets", Seg.placeholder "petId"],
          ⟨[⟨"petId", some "path", none⟩], [("get", ⟨[]⟩)]⟩),
         ([Seg.lit "pets", Seg.placeholder "id"],
          ⟨[⟨"id", some "path", none⟩], [("get", ⟨[]⟩)]⟩)]
      = [(reString (expressStylePath [] [Seg.lit "pets", Seg.placeholder "id"]),
          mkRoute [] [Seg.lit "pets", Seg.placeholder "id"]
            ⟨[⟨"id", some "path", none⟩], [("get", ⟨[]⟩)]⟩)] :=
  ⟨rfl,
   (c10_same_pattern_string_overwrites [] [Seg.lit "pets", Seg.placeholder "petId"]
      [Seg.lit "pets", Seg.placeholder "id"]
      ⟨[⟨"petId", some "path", none⟩], [("get", ⟨[]⟩)]⟩
      ⟨[⟨"id", some "path", none⟩], [("get", ⟨[]⟩)]⟩ rfl).1⟩
